import Mathlib

/-!
Verification development for the BRREG lookup tool (brreg_lookup.py).

Strings are embedded as lists of characters, Python floats as rationals,
and the two HTTP calls of the client as explicit response values.  The
definitions below translate, in source order: the scoring constants, the
text-matching helpers of TextMatcher, the Address / OrganizationInfo data
model, the parsing step, the two-tier lookup and the name search of
BRREGClient, and the relevance-tier label of the display formatter.
-/

abbrev Str := List Char

/-! ### Scoring constants (module-level constants of brreg_lookup.py) -/

def EXACT_MATCH_THRESHOLD : ℚ := 95/100

def HIGH_RELEVANCE_THRESHOLD : ℚ := 8/10

def GOOD_MATCH_THRESHOLD : ℚ := 6/10

def WORD_SUBSET_BONUS : ℚ := 2/10

def WORD_ORDER_BONUS : ℚ := 1/10

/-! ### Text normalization (TextMatcher._normalize_text) -/

/-- Embedding of Python str.lower on a character; as in the source language
runtime, only basic latin letters change. -/
def lowerStr (s : Str) : Str := s.map Char.toLower

/-- Remove the trailing run of characters satisfying p (the right half of
Python str.strip). -/
def dropTrailing (p : Char → Bool) : Str → Str
  | [] => []
  | c :: cs => if dropTrailing p cs = [] ∧ p c = true then [] else c :: dropTrailing p cs

/-- Embedding of Python str.strip: remove leading and trailing whitespace. -/
def pyStrip (s : Str) : Str := dropTrailing Char.isWhitespace (s.dropWhile Char.isWhitespace)

/-- TextMatcher._normalize_text: text.lower().strip(). -/
def normalize_text (s : Str) : Str := pyStrip (lowerStr s)

/-! ### Word splitting (Python str.split with no separator) -/

/-- Helper for pySplit: acc holds the current in-progress word, reversed. -/
def splitAux : Str → Str → List Str
  | acc, [] => if acc = [] then [] else [acc.reverse]
  | acc, c :: cs =>
    if Char.isWhitespace c = true then
      if acc = [] then splitAux [] cs else acc.reverse :: splitAux [] cs
    else splitAux (c :: acc) cs

/-- Embedding of Python str.split(): split on runs of whitespace, no empty
words. -/
def pySplit (s : Str) : List Str := splitAux [] s

/-! ### Substring containment (Python `in` on strings) -/

def isSubstringOf (needle hay : Str) : Bool :=
  (List.range (hay.length + 1)).any fun i => needle.isPrefixOf (hay.drop i)

/-! ### difflib.SequenceMatcher ratio

Modelled from the spec: the sequence-alignment similarity measure of step 5
(difflib.SequenceMatcher.ratio, Ratcliff/Obershelp): repeatedly take the
longest matching block -- earliest start in the first string, then in the
second, which is the block the difflib scan selects -- recurse on the parts
left and right of it, and return twice the total matched length divided by
the sum of the lengths.  The junk heuristics of difflib are omitted: the
spec describes the pure ratio, and the only automatic junk rule of the
library concerns sequences of length at least 200.  The recursion is fed
fuel equal to the length of the first string, which bounds its depth. -/

/-- Length of the common prefix of two strings. -/
def commonRun : Str → Str → Nat
  | a :: as, b :: bs => if a = b then commonRun as bs + 1 else 0
  | _, _ => 0

/-- Longest matching block of two strings as (start in a, start in b,
length), ties resolved towards the smallest start in a, then in b. -/
def findLongestMatch (a b : Str) : Nat × Nat × Nat :=
  (List.range a.length).foldl (fun best i =>
    (List.range b.length).foldl (fun best j =>
      let k := commonRun (a.drop i) (b.drop j)
      if best.2.2 < k then (i, j, k) else best) best)
    (0, 0, 0)

/-- Total number of matched characters over all matching blocks. -/
def matchingTotalFuel : Nat → Str → Str → Nat
  | 0, _, _ => 0
  | fuel + 1, a, b =>
    let t := findLongestMatch a b
    if t.2.2 = 0 then 0
    else matchingTotalFuel fuel (a.take t.1) (b.take t.2.1) + t.2.2 +
         matchingTotalFuel fuel (a.drop (t.1 + t.2.2)) (b.drop (t.2.1 + t.2.2))

def matchingTotal (a b : Str) : Nat := matchingTotalFuel a.length a b

/-- SequenceMatcher(None, a, b).ratio(): 2*M / (len a + len b), and 1.0 when
both strings are empty. -/
def ratioOf (a b : Str) : ℚ :=
  if a.length + b.length = 0 then 1
  else (2 * matchingTotal a b : ℚ) / ((a.length : ℚ) + (b.length : ℚ))

/-! ### TextMatcher word bonuses -/

/-- set(query_clean.split()).issubset(set(name_clean.split())). -/
def wordSubset (query_clean name_clean : Str) : Bool :=
  (pySplit query_clean).all fun w => (pySplit name_clean).contains w

/-- One step of the forward pointer walk of TextMatcher._preserves_word_order:
advance the query pointer when the candidate word equals the next unmatched
query word. -/
def pointerStep (query_words : List Str) (query_index : Nat) (word : Str) : Nat :=
  if h : query_index < query_words.length then
    if word = query_words.get ⟨query_index, h⟩ then query_index + 1 else query_index
  else query_index

/-- TextMatcher._preserves_word_order: walk candidate words left to right
with a single forward pointer into the query words. -/
def preserves_word_order (query name : Str) : Bool :=
  let query_words := pySplit query
  let name_words := pySplit name
  name_words.foldl (pointerStep query_words) 0 = query_words.length

/-! ### TextMatcher.calculate_relevance_score -/

/-- Python min on two rationals (the first argument on ties); equal to
Mathlib min by min_def. -/
def pyMin (a b : ℚ) : ℚ := if a ≤ b then a else b

def calculate_relevance_score (query organization_name : Str) : ℚ :=
  let query_clean := normalize_text query
  let name_clean := normalize_text organization_name
  if query_clean = name_clean then 1
  else if isSubstringOf query_clean name_clean then 95/100
  else if isSubstringOf name_clean query_clean then 9/10
  else
    let similarity := ratioOf query_clean name_clean
    let similarity := if wordSubset query_clean name_clean then similarity + WORD_SUBSET_BONUS else similarity
    let similarity := if preserves_word_order query_clean name_clean then similarity + WORD_ORDER_BONUS else similarity
    pyMin similarity 1

/-! ### Data model -/

inductive EntityType
  | HOVEDENHET
  | UNDERENHET
  deriving DecidableEq

/-- Truthiness of an optional string in the source language: present and
non-empty. -/
def pyTruthyStr : Option Str → Bool
  | none => false
  | some s => !s.isEmpty

structure Address where
  street_lines : List Str
  postal_code : Option Str := none
  city : Option Str := none
  deriving DecidableEq

def ADDRESS_UNAVAILABLE : Str := ("Adresse ikke tilgjengelig").data

/-- Join a list of parts with a separator (str.join). -/
def joinParts (sep : Str) : List Str → Str
  | [] => []
  | [p] => p
  | p :: ps => p ++ sep ++ joinParts sep ps

/-- The parts collected by Address.format: trimmed non-blank street lines in
order, then -- when a postal code is present -- the postal code, followed by
a space and the city when a city is present. -/
def Address.formatParts (a : Address) : List Str :=
  let streetParts := (a.street_lines.filter fun line =>
    !line.isEmpty && !(pyStrip line).isEmpty).map pyStrip
  let postalParts : List Str :=
    match a.postal_code with
    | none => []
    | some pc =>
      if pc.isEmpty then []
      else
        match a.city with
        | none => [pc]
        | some city => if city.isEmpty then [pc] else [pc ++ (' ' :: city)]
  streetParts ++ postalParts

def Address.format (a : Address) : Str :=
  if a.street_lines = [] ∧ pyTruthyStr a.postal_code = false then ADDRESS_UNAVAILABLE
  else if a.formatParts = [] then ADDRESS_UNAVAILABLE
  else joinParts ((", ").data) a.formatParts

structure OrganizationInfo where
  name : Str
  org_number : Str
  entity_type : EntityType
  business_address : Option Address := none
  postal_address : Option Address := none
  organization_form : Option Str := none
  industry_code : Option Str := none
  relevance_score : ℚ := 0
  deriving DecidableEq

/-- OrganizationInfo.primary_address: business address when present, else
postal address, else an empty address. -/
def OrganizationInfo.primary_address (o : OrganizationInfo) : Address :=
  match o.business_address with
  | some a => a
  | none =>
    match o.postal_address with
    | some a => a
    | none => { street_lines := [] }

/-! ### Raw API records

A field of the raw JSON record is either absent (missing, null or falsy: the
source skips it), present with a well-shaped value, or present with an
ill-typed value on which the attribute access of the parser raises (the
exception is caught and the record dropped). -/

inductive RawField (α : Type)
  | absent
  | malformed
  | value (a : α)
  deriving DecidableEq

structure RawAddress where
  adresse : Option (List Str) := none
  postnummer : Option Str := none
  poststed : Option Str := none
  deriving DecidableEq

structure RawOrg where
  navn : Option Str := none
  organisasjonsnummer : Option Str := none
  forretningsadresse : RawField RawAddress := .absent
  postadresse : RawField RawAddress := .absent
  organisasjonsform : RawField (Option Str) := .absent
  naeringskode1 : RawField (Option Str) := .absent
  deriving DecidableEq

/-- BRREGClient._parse_address.  none signals an exception escaping to the
caller; some none is the explicit None result on a falsy address block. -/
def parse_address : RawField RawAddress → Option (Option Address)
  | .absent => some none
  | .malformed => none
  | .value ra => some (some
      { street_lines := ra.adresse.getD []
        postal_code := ra.postnummer
        city := ra.poststed })

/-- A RawField of an optional description: some none when the block is
absent, none when ill-typed, some (some b) when well-shaped. -/
def parse_description : RawField (Option Str) → Option (Option Str)
  | .absent => some none
  | .malformed => none
  | .value b => some b

/-- BRREGClient._parse_organization_data: build an OrganizationInfo, scoring
against the query when one is given (and truthy); any exception from an
ill-typed field makes the whole record parse to none. -/
def parse_organization_data (data : RawOrg) (entity_type : EntityType)
    (query : Option Str := none) : Option OrganizationInfo :=
  let name := data.navn.getD (("Navn ikke tilgjengelig").data)
  let org_number := data.organisasjonsnummer.getD (("N/A").data)
  let relevance_score : ℚ :=
    match query with
    | some q => if q.isEmpty then 0 else calculate_relevance_score q name
    | none => 0
  (parse_address data.forretningsadresse).bind fun business_address =>
  (parse_address data.postadresse).bind fun postal_address =>
  (parse_description data.organisasjonsform).bind fun org_form =>
  (parse_description data.naeringskode1).bind fun industry_code =>
  some { name := name
         org_number := org_number
         entity_type := entity_type
         business_address := business_address
         postal_address := postal_address
         organization_form := org_form
         industry_code := industry_code
         relevance_score := relevance_score }

/-! ### BRREGClient.lookup_by_number

The two HTTP calls are embedded as explicit response values: a request
either fails with a network error or yields a status code and a body. -/

inductive HttpResponse
  | failure
  | response (status : Nat) (body : RawOrg)
  deriving DecidableEq

inductive Tier
  | mainTier
  | subTier
  deriving DecidableEq

def isOk200 : HttpResponse → Bool
  | .response status _ => status = 200
  | .failure => false

/-- The second attempt of lookup_by_number: the sub-entity tier (a network
failure or a non-200 status yields None). -/
def lookupSubTier : HttpResponse → Option OrganizationInfo
  | .response status data =>
    if status = 200 then parse_organization_data data .UNDERENHET none else none
  | .failure => none

/-- lookup_by_number together with the list of tiers it queries: the main
tier always, and the sub tier unless the main tier answered 200. -/
def lookupByNumberRun (mainResp subResp : HttpResponse) :
    Option OrganizationInfo × List Tier :=
  match mainResp with
  | .response status data =>
    if status = 200 then (parse_organization_data data .HOVEDENHET none, [.mainTier])
    else (lookupSubTier subResp, [.mainTier, .subTier])
  | .failure => (lookupSubTier subResp, [.mainTier, .subTier])

def lookup_by_number (mainResp subResp : HttpResponse) : Option OrganizationInfo :=
  (lookupByNumberRun mainResp subResp).1

/-! ### BRREGClient.search_by_name -/

/-- The descending sort order of search_by_name: sort by the key pair
(relevance_score, entity_type == HOVEDENHET) in reverse. -/
def rankPrecedes (x y : OrganizationInfo) : Prop :=
  y.relevance_score < x.relevance_score ∨
    (y.relevance_score = x.relevance_score ∧
      (y.entity_type = EntityType.HOVEDENHET → x.entity_type = EntityType.HOVEDENHET))

instance : DecidableRel rankPrecedes := fun x y => by
  unfold rankPrecedes; infer_instance

/-- search_by_name, with the two endpoint result lists (main entities, then
sub entities) supplied by the HTTP collaborator: parse each raw record
against the query, drop records that fail to parse, concatenate, and sort by
descending relevance with main entities first on ties. -/
def search_by_name (name : Str) (mainRaw subRaw : List RawOrg) : List OrganizationInfo :=
  let results :=
    (mainRaw.filterMap fun d => parse_organization_data d .HOVEDENHET (some name)) ++
    (subRaw.filterMap fun d => parse_organization_data d .UNDERENHET (some name))
  results.insertionSort rankPrecedes

/-! ### OrganizationDisplayFormatter relevance tier label -/

def relevance_indicator (relevance_score : ℚ) : Str :=
  if EXACT_MATCH_THRESHOLD ≤ relevance_score then (" 🎯 EXACT MATCH").data
  else if HIGH_RELEVANCE_THRESHOLD ≤ relevance_score then (" ⭐ HIGH RELEVANCE").data
  else if GOOD_MATCH_THRESHOLD ≤ relevance_score then (" 📍 GOOD MATCH").data
  else []

/-! ### Helper lemmas: normalization idempotence -/

theorem dropWhile_dropWhile (p : Char → Bool) (l : Str) :
    (l.dropWhile p).dropWhile p = l.dropWhile p := by
  induction l with
  | nil => rfl
  | cons c cs ih =>
    by_cases h : p c = true
    · rw [List.dropWhile_cons_of_pos h]; exact ih
    · rw [List.dropWhile_cons_of_neg h, List.dropWhile_cons_of_neg h]

theorem dropWhile_eq_nil_of_dropTrailing_eq_nil (p : Char → Bool) (l : Str)
    (h : dropTrailing p l = []) : l.dropWhile p = [] := by
  induction l with
  | nil => rfl
  | cons c cs ih =>
    rw [dropTrailing] at h
    split at h
    case isTrue hc =>
      rw [List.dropWhile_cons_of_pos hc.2]
      exact ih hc.1
    case isFalse hc => exact absurd h (by simp)

theorem dropTrailing_idem (p : Char → Bool) (l : Str) :
    dropTrailing p (dropTrailing p l) = dropTrailing p l := by
  induction l with
  | nil => rfl
  | cons c cs ih =>
    by_cases hc : dropTrailing p cs = [] ∧ p c = true
    · rw [dropTrailing, if_pos hc]; rfl
    · rw [dropTrailing, if_neg hc, dropTrailing, ih, if_neg hc]

theorem dropWhile_dropTrailing (p : Char → Bool) (l : Str) :
    (dropTrailing p l).dropWhile p = dropTrailing p (l.dropWhile p) := by
  induction l with
  | nil => rfl
  | cons c cs ih =>
    by_cases hpc : p c = true
    · by_cases hnil : dropTrailing p cs = []
      · rw [dropTrailing, if_pos ⟨hnil, hpc⟩, List.dropWhile_cons_of_pos hpc,
            dropWhile_eq_nil_of_dropTrailing_eq_nil p cs hnil]
        rfl
      · rw [dropTrailing, if_neg (fun h => hnil h.1), List.dropWhile_cons_of_pos hpc,
            List.dropWhile_cons_of_pos hpc]
        exact ih
    · rw [dropTrailing, if_neg (fun h => hpc h.2), List.dropWhile_cons_of_neg hpc,
          List.dropWhile_cons_of_neg hpc, dropTrailing, if_neg (fun h => hpc h.2)]

theorem pyStrip_idem (l : Str) : pyStrip (pyStrip l) = pyStrip l := by
  unfold pyStrip
  rw [dropWhile_dropTrailing, dropWhile_dropWhile, dropTrailing_idem]

theorem toNat_ofNat_valid {n : Nat} (h : n.isValidChar) : (Char.ofNat n).toNat = n := by
  rw [Char.ofNat, dif_pos h]; rfl

theorem toLower_eq_of_upper {c : Char} (h : c.toNat ≥ 65 ∧ c.toNat ≤ 90) :
    c.toLower = Char.ofNat (c.toNat + 32) := by
  simp only [Char.toLower]
  rw [if_pos h]

theorem toLower_eq_self {c : Char} (h : ¬(c.toNat ≥ 65 ∧ c.toNat ≤ 90)) :
    c.toLower = c := by
  simp only [Char.toLower]
  rw [if_neg h]

theorem toLower_idem (c : Char) : c.toLower.toLower = c.toLower := by
  by_cases h : c.toNat ≥ 65 ∧ c.toNat ≤ 90
  · rw [toLower_eq_of_upper h]
    have ht : (Char.ofNat (c.toNat + 32)).toNat = c.toNat + 32 :=
      toNat_ofNat_valid (Or.inl (by omega))
    exact toLower_eq_self (by rw [ht]; omega)
  · rw [toLower_eq_self h, toLower_eq_self h]

theorem isWhitespace_eq_false_of_toNat (c : Char) (h : 33 ≤ c.toNat) :
    c.isWhitespace = false := by
  have hs : c ≠ ' ' := fun he => by subst he; exact absurd h (by decide)
  have h1 : c ≠ '\t' := fun he => by subst he; exact absurd h (by decide)
  have h2 : c ≠ '\r' := fun he => by subst he; exact absurd h (by decide)
  have h3 : c ≠ '\n' := fun he => by subst he; exact absurd h (by decide)
  simp [Char.isWhitespace, hs, h1, h2, h3]

theorem isWhitespace_toLower (c : Char) : c.toLower.isWhitespace = c.isWhitespace := by
  by_cases h : c.toNat ≥ 65 ∧ c.toNat ≤ 90
  · rw [toLower_eq_of_upper h]
    have ht : (Char.ofNat (c.toNat + 32)).toNat = c.toNat + 32 :=
      toNat_ofNat_valid (Or.inl (by omega))
    rw [isWhitespace_eq_false_of_toNat _ (by omega),
        isWhitespace_eq_false_of_toNat c (by omega)]
  · rw [toLower_eq_self h]

theorem lowerStr_idem (s : Str) : lowerStr (lowerStr s) = lowerStr s := by
  induction s with
  | nil => rfl
  | cons c cs ih =>
    show Char.toLower c.toLower :: lowerStr (lowerStr cs) = Char.toLower c :: lowerStr cs
    rw [toLower_idem, ih]

theorem dropWhile_lowerStr (s : Str) :
    (lowerStr s).dropWhile Char.isWhitespace = lowerStr (s.dropWhile Char.isWhitespace) := by
  induction s with
  | nil => rfl
  | cons c cs ih =>
    show (Char.toLower c :: lowerStr cs).dropWhile _ = _
    by_cases h : c.isWhitespace = true
    · rw [List.dropWhile_cons_of_pos (by rw [isWhitespace_toLower]; exact h),
          List.dropWhile_cons_of_pos h]
      exact ih
    · rw [List.dropWhile_cons_of_neg (by rw [isWhitespace_toLower]; exact h),
          List.dropWhile_cons_of_neg h]
      rfl

theorem dropTrailing_lowerStr (s : Str) :
    dropTrailing Char.isWhitespace (lowerStr s) =
      lowerStr (dropTrailing Char.isWhitespace s) := by
  induction s with
  | nil => rfl
  | cons c cs ih =>
    show dropTrailing _ (Char.toLower c :: lowerStr cs) = _
    rw [dropTrailing, ih, isWhitespace_toLower, dropTrailing]
    by_cases h : dropTrailing Char.isWhitespace cs = [] ∧ c.isWhitespace = true
    · rw [if_pos ⟨by rw [h.1]; rfl, h.2⟩, if_pos h]
      rfl
    · rw [if_neg (fun hh => h ⟨by
          have := hh.1
          unfold lowerStr at this
          exact List.map_eq_nil_iff.mp this, hh.2⟩), if_neg h]
      rfl

theorem lowerStr_pyStrip_lowerStr (s : Str) :
    lowerStr (pyStrip (lowerStr s)) = pyStrip (lowerStr s) := by
  unfold pyStrip
  rw [← dropTrailing_lowerStr, ← dropWhile_lowerStr, lowerStr_idem]

theorem normalize_text_idem (s : Str) :
    normalize_text (normalize_text s) = normalize_text s := by
  unfold normalize_text
  rw [lowerStr_pyStrip_lowerStr, pyStrip_idem]


/-! ### Helper lemmas: the forward pointer walk decides the subsequence
relation -/

/-- Recursive form of the forward pointer walk over two word lists. -/
def subseqWalk : List Str → List Str → Bool
  | [], _ => true
  | _ :: _, [] => false
  | q :: qs, n :: ns => if n = q then subseqWalk qs ns else subseqWalk (q :: qs) ns

theorem subseqWalk_iff : ∀ (ns qs : List Str),
    subseqWalk qs ns = true ↔ List.Sublist qs ns
  | _, [] => by
    simp only [subseqWalk]
    exact iff_of_true True.intro (List.nil_sublist _)
  | [], q :: qs => by
    simp only [subseqWalk]
    constructor
    · intro h; cases h
    · intro h; cases h
  | n :: ns, q :: qs => by
    by_cases h : n = q
    · subst h
      simp only [subseqWalk, if_pos rfl]
      rw [List.cons_sublist_cons]
      exact subseqWalk_iff ns qs
    · simp only [subseqWalk, if_neg h]
      rw [subseqWalk_iff ns (q :: qs)]
      constructor
      · exact fun hs => hs.cons n
      · intro hs
        cases hs with
        | cons _ hs => exact hs
        | cons₂ _ hs => exact absurd rfl h

theorem foldl_pointerStep_at_end (qws : List Str) (ns : List Str) :
    ns.foldl (pointerStep qws) qws.length = qws.length := by
  induction ns with
  | nil => rfl
  | cons n ns ih =>
    rw [List.foldl_cons,
        show pointerStep qws qws.length n = qws.length from by
          unfold pointerStep; rw [dif_neg (by omega)]]
    exact ih

theorem foldl_pointerStep_eq (qws : List Str) :
    ∀ (ns : List Str) (qi : Nat), qi ≤ qws.length →
      (ns.foldl (pointerStep qws) qi = qws.length ↔
        subseqWalk (qws.drop qi) ns = true) := by
  intro ns
  induction ns with
  | nil =>
    intro qi h
    rw [List.foldl_nil]
    constructor
    · intro he; rw [he, List.drop_length]; rfl
    · intro hw
      rcases Nat.lt_or_ge qi qws.length with hlt | hge
      · rw [List.drop_eq_getElem_cons hlt] at hw
        simp only [subseqWalk] at hw
        exact absurd hw (by decide)
      · omega
  | cons n ns ih =>
    intro qi h
    rw [List.foldl_cons]
    by_cases hlt : qi < qws.length
    · rw [List.drop_eq_getElem_cons hlt]
      simp only [subseqWalk]
      by_cases he : n = qws[qi]
      · rw [if_pos he,
            show pointerStep qws qi n = qi + 1 from by
              unfold pointerStep
              rw [dif_pos hlt, if_pos (by rw [List.get_eq_getElem]; exact he)]]
        rw [ih (qi + 1) (by omega)]
      · rw [if_neg he,
            show pointerStep qws qi n = qi from by
              unfold pointerStep
              rw [dif_pos hlt, if_neg (by rw [List.get_eq_getElem]; exact he)]]
        rw [ih qi (by omega), List.drop_eq_getElem_cons hlt]
    · have hq : qi = qws.length := by omega
      subst hq
      rw [show pointerStep qws qws.length n = qws.length from by
            unfold pointerStep; rw [dif_neg (by omega)],
          foldl_pointerStep_at_end, List.drop_length]
      simp only [subseqWalk]

/-- The word-order bonus predicate of the source holds exactly when the
query words form a subsequence (in order, with gaps) of the name words. -/
theorem preserves_word_order_iff (query name : Str) :
    preserves_word_order query name = true ↔
      List.Sublist (pySplit query) (pySplit name) := by
  unfold preserves_word_order
  rw [decide_eq_true_iff,
      foldl_pointerStep_eq (pySplit query) (pySplit name) 0 (Nat.zero_le _),
      List.drop_zero, subseqWalk_iff]

/-- The word-subset bonus predicate of the source holds exactly when every
word of the query occurs among the words of the name. -/
theorem wordSubset_iff (query name : Str) :
    wordSubset query name = true ↔
      ∀ w ∈ pySplit query, w ∈ pySplit name := by
  unfold wordSubset
  rw [List.all_eq_true]
  constructor
  · intro hall w hw
    have := hall w hw
    simpa [List.contains, List.elem_iff] using this
  · intro hall w hw
    simpa [List.contains, List.elem_iff] using hall w hw

/-! ### Helper lemmas: score structure and bounds -/

theorem pyMin_eq_min (a b : ℚ) : pyMin a b = min a b := (min_def a b).symm

theorem ratioOf_nonneg (a b : Str) : 0 ≤ ratioOf a b := by
  unfold ratioOf
  split
  · norm_num
  · apply div_nonneg
    · positivity
    · positivity

theorem isSubstringOf_nil (hay : Str) : isSubstringOf [] hay = true := by
  unfold isSubstringOf
  rw [List.any_eq_true]
  exact ⟨hay.length, List.mem_range.mpr (by omega), by rw [List.drop_length]; rfl⟩

/-- On the fuzzy path the score is the ratio plus the two conditional
bonuses, clamped at 1. -/
theorem score_fuzzy (query name : Str)
    (h1 : ¬ normalize_text query = normalize_text name)
    (h2 : isSubstringOf (normalize_text query) (normalize_text name) = false)
    (h3 : isSubstringOf (normalize_text name) (normalize_text query) = false) :
    calculate_relevance_score query name =
      pyMin (ratioOf (normalize_text query) (normalize_text name)
        + (if wordSubset (normalize_text query) (normalize_text name) = true
            then WORD_SUBSET_BONUS else 0)
        + (if preserves_word_order (normalize_text query) (normalize_text name) = true
            then WORD_ORDER_BONUS else 0)) 1 := by
  unfold calculate_relevance_score
  rw [if_neg h1, if_neg (by simp [h2]), if_neg (by simp [h3])]
  by_cases hw : wordSubset (normalize_text query) (normalize_text name) = true <;>
    by_cases ho : preserves_word_order (normalize_text query) (normalize_text name) = true <;>
    simp [hw, ho]

/-- The short-circuit structure of calculate_relevance_score. -/
theorem score_eq_one_of_eq (query name : Str)
    (h : normalize_text query = normalize_text name) :
    calculate_relevance_score query name = 1 := by
  unfold calculate_relevance_score
  rw [if_pos h]

theorem score_eq_095_of_substring (query name : Str)
    (h1 : ¬ normalize_text query = normalize_text name)
    (h2 : isSubstringOf (normalize_text query) (normalize_text name) = true) :
    calculate_relevance_score query name = 95/100 := by
  unfold calculate_relevance_score
  rw [if_neg h1, if_pos h2]

theorem score_eq_09_of_rev_substring (query name : Str)
    (h1 : ¬ normalize_text query = normalize_text name)
    (h2 : isSubstringOf (normalize_text query) (normalize_text name) = false)
    (h3 : isSubstringOf (normalize_text name) (normalize_text query) = true) :
    calculate_relevance_score query name = 9/10 := by
  unfold calculate_relevance_score
  rw [if_neg h1, if_neg (by simp [h2]), if_pos h3]

theorem score_bounds (query name : Str) :
    0 ≤ calculate_relevance_score query name ∧
      calculate_relevance_score query name ≤ 1 := by
  by_cases h1 : normalize_text query = normalize_text name
  · rw [score_eq_one_of_eq query name h1]; norm_num
  by_cases h2 : isSubstringOf (normalize_text query) (normalize_text name) = true
  · rw [score_eq_095_of_substring query name h1 h2]; norm_num
  by_cases h3 : isSubstringOf (normalize_text name) (normalize_text query) = true
  · rw [score_eq_09_of_rev_substring query name h1 (by simpa using h2) h3]; norm_num
  · rw [score_fuzzy query name h1 (by simpa using h2) (by simpa using h3)]
    have hr := ratioOf_nonneg (normalize_text query) (normalize_text name)
    unfold pyMin WORD_SUBSET_BONUS WORD_ORDER_BONUS
    split_ifs <;> constructor <;> linarith

/-! ### Helper lemmas: parsing and ranking -/

theorem parse_entity_type (data : RawOrg) (et : EntityType) (query : Option Str)
    (r : OrganizationInfo) (h : parse_organization_data data et query = some r) :
    r.entity_type = et := by
  simp only [parse_organization_data, Option.bind_eq_some] at h
  obtain ⟨ba, hba, pa, hpa, f, hf, ic, hic, hr⟩ := h
  obtain rfl := Option.some_inj.mp hr
  rfl

instance : IsTotal OrganizationInfo rankPrecedes := ⟨by
  intro x y
  unfold rankPrecedes
  rcases lt_trichotomy x.relevance_score y.relevance_score with h | h | h
  · exact Or.inr (Or.inl h)
  · by_cases hy : y.entity_type = EntityType.HOVEDENHET
    · by_cases hx : x.entity_type = EntityType.HOVEDENHET
      · exact Or.inl (Or.inr ⟨h.symm, fun _ => hx⟩)
      · exact Or.inr (Or.inr ⟨h, fun _ => hy⟩)
    · exact Or.inl (Or.inr ⟨h.symm, fun hh => absurd hh hy⟩)
  · exact Or.inl (Or.inl h)⟩

instance : IsTrans OrganizationInfo rankPrecedes := ⟨by
  intro x y z hxy hyz
  unfold rankPrecedes at *
  rcases hxy with h1 | ⟨h1, h1e⟩ <;> rcases hyz with h2 | ⟨h2, h2e⟩
  · exact Or.inl (lt_trans h2 h1)
  · exact Or.inl (h2 ▸ h1)
  · exact Or.inl (by rw [h1] at h2; exact h2)
  · exact Or.inr ⟨h2.trans h1, fun hz => h1e (h2e hz)⟩⟩

theorem lookupSubTier_eq_none (subResp : HttpResponse) (h : isOk200 subResp = false) :
    lookupSubTier subResp = none := by
  rcases subResp with _ | ⟨s, d⟩
  · rfl
  · simp only [isOk200, decide_eq_false_iff_not] at h
    simp only [lookupSubTier]
    rw [if_neg h]

theorem lookupSubTier_entity (subResp : HttpResponse) (r : OrganizationInfo)
    (h : lookupSubTier subResp = some r) : r.entity_type = EntityType.UNDERENHET := by
  rcases subResp with _ | ⟨s, d⟩
  · exact absurd h (by simp [lookupSubTier])
  · simp only [lookupSubTier] at h
    split at h
    · exact parse_entity_type d _ none r h
    · exact absurd h (by simp)

theorem formatParts_nil_of (a : Address) (h1 : a.street_lines = [])
    (h2 : pyTruthyStr a.postal_code = false) : a.formatParts = [] := by
  unfold Address.formatParts
  rw [h1]
  rcases hpc : a.postal_code with _ | pc
  · rfl
  · rw [hpc] at h2
    unfold pyTruthyStr at h2
    simp only [Bool.not_eq_false'] at h2
    simp [h2]

/-! ## Claims -/

/-- C1: calculate_relevance_score short-circuits in order: equal normalized
forms return exactly 1.0, else query-in-candidate containment returns
exactly 0.95, else candidate-in-query containment returns exactly 0.9; a
query normalizing to the empty string returns 1.0 or 0.95 and never reaches
the fuzzy path. -/
theorem C1_short_circuit_order (query name : Str) :
    (normalize_text query = normalize_text name →
      calculate_relevance_score query name = 1) ∧
    (normalize_text query ≠ normalize_text name →
      isSubstringOf (normalize_text query) (normalize_text name) = true →
      calculate_relevance_score query name = 95/100) ∧
    (normalize_text query ≠ normalize_text name →
      isSubstringOf (normalize_text query) (normalize_text name) = false →
      isSubstringOf (normalize_text name) (normalize_text query) = true →
      calculate_relevance_score query name = 9/10) ∧
    (normalize_text query = [] →
      calculate_relevance_score query name = 1 ∨
        calculate_relevance_score query name = 95/100) := by
  refine ⟨score_eq_one_of_eq query name, score_eq_095_of_substring query name,
    score_eq_09_of_rev_substring query name, ?_⟩
  intro hq
  by_cases h : normalize_text query = normalize_text name
  · exact Or.inl (score_eq_one_of_eq query name h)
  · refine Or.inr (score_eq_095_of_substring query name h ?_)
    rw [hq]
    exact isSubstringOf_nil _

theorem C1_short_circuit_order_witness :
    calculate_relevance_score (("abc").data) (("ABC ").data) = 1 ∧
    calculate_relevance_score (("b c").data) (("a b c").data) = 95/100 ∧
    calculate_relevance_score (("a b c").data) (("b c").data) = 9/10 ∧
    (calculate_relevance_score (("  ").data) (("x").data) = 1 ∨
      calculate_relevance_score (("  ").data) (("x").data) = 95/100) :=
  ⟨(C1_short_circuit_order _ _).1 (by decide),
   (C1_short_circuit_order _ _).2.1 (by decide) (by decide),
   (C1_short_circuit_order _ _).2.2.1 (by decide) (by decide) (by decide),
   (C1_short_circuit_order _ _).2.2.2 (by decide)⟩

/-- C2: when no short-circuit applies, the score is the SequenceMatcher
ratio of the two normalized strings, plus 0.2 when every word of the query
word set occurs in the candidate word set, plus 0.1 when word order is
preserved (the query words are a subsequence of the candidate words),
clamped at 1.0. -/
theorem C2_fuzzy_formula (query name : Str)
    (h1 : normalize_text query ≠ normalize_text name)
    (h2 : isSubstringOf (normalize_text query) (normalize_text name) = false)
    (h3 : isSubstringOf (normalize_text name) (normalize_text query) = false) :
    calculate_relevance_score query name =
      min (ratioOf (normalize_text query) (normalize_text name)
        + (if ∀ w ∈ pySplit (normalize_text query), w ∈ pySplit (normalize_text name)
            then WORD_SUBSET_BONUS else 0)
        + (if List.Sublist (pySplit (normalize_text query)) (pySplit (normalize_text name))
            then WORD_ORDER_BONUS else 0)) 1 := by
  rw [score_fuzzy query name h1 h2 h3, pyMin_eq_min,
      if_congr (wordSubset_iff (normalize_text query) (normalize_text name)) rfl rfl,
      if_congr (preserves_word_order_iff (normalize_text query) (normalize_text name)) rfl rfl]

theorem C2_fuzzy_formula_witness :
    normalize_text (("aa bb").data) ≠ normalize_text (("aa x bb").data) ∧
    calculate_relevance_score (("aa bb").data) (("aa x bb").data) =
      min (ratioOf (normalize_text (("aa bb").data)) (normalize_text (("aa x bb").data))
        + (if ∀ w ∈ pySplit (normalize_text (("aa bb").data)),
              w ∈ pySplit (normalize_text (("aa x bb").data))
            then WORD_SUBSET_BONUS else 0)
        + (if List.Sublist (pySplit (normalize_text (("aa bb").data)))
              (pySplit (normalize_text (("aa x bb").data)))
            then WORD_ORDER_BONUS else 0)) 1 :=
  ⟨by decide, C2_fuzzy_formula _ _ (by decide) (by decide) (by decide)⟩

/-- C3: the +0.1 word-order bonus is granted exactly when the query words
form a subsequence, in order with gaps, of the candidate words, as the
forward pointer walk computes; query AS SORTLAND against candidate
FJORDKRAFT AS AVD SORTLAND receives the bonus, query SORTLAND AS against
the same candidate does not. -/
theorem C3_word_order_bonus :
    (∀ query name : Str,
      preserves_word_order (normalize_text query) (normalize_text name) = true ↔
        List.Sublist (pySplit (normalize_text query)) (pySplit (normalize_text name))) ∧
    calculate_relevance_score (("AS SORTLAND").data) (("FJORDKRAFT AS AVD SORTLAND").data) =
      pyMin (ratioOf (normalize_text (("AS SORTLAND").data))
          (normalize_text (("FJORDKRAFT AS AVD SORTLAND").data))
        + WORD_SUBSET_BONUS + WORD_ORDER_BONUS) 1 ∧
    calculate_relevance_score (("SORTLAND AS").data) (("FJORDKRAFT AS AVD SORTLAND").data) =
      pyMin (ratioOf (normalize_text (("SORTLAND AS").data))
          (normalize_text (("FJORDKRAFT AS AVD SORTLAND").data))
        + WORD_SUBSET_BONUS + 0) 1 := by
  refine ⟨fun query name => preserves_word_order_iff _ _, ?_, ?_⟩
  · rw [score_fuzzy _ _ (by decide) (by decide) (by decide),
        if_pos (by decide), if_pos (by decide)]
  · rw [score_fuzzy _ _ (by decide) (by decide) (by decide),
        if_pos (by decide), if_neg (by decide)]

/-- C4: calculate_relevance_score is total and always lands in [0, 1]. -/
theorem C4_total_unit_interval (query name : Str) :
    0 ≤ calculate_relevance_score query name ∧
      calculate_relevance_score query name ≤ 1 :=
  score_bounds query name

/-- C5: the score depends only on the normalized forms of its arguments; in
particular the ABC/abc and padded abc/abc scores coincide. -/
theorem C5_normalization_invariance (query name : Str) :
    calculate_relevance_score query name =
      calculate_relevance_score (normalize_text query) (normalize_text name) ∧
    calculate_relevance_score (("ABC").data) (("abc").data) =
      calculate_relevance_score ((" abc ").data) (("abc").data) := by
  constructor
  · unfold calculate_relevance_score
    rw [normalize_text_idem, normalize_text_idem]
  · decide

/-- C6: search_by_name output is sorted by descending relevance score, and
on equal scores no SUB record precedes a MAIN record. -/
theorem C6_search_sorted (name : Str) (mainRaw subRaw : List RawOrg) :
    (search_by_name name mainRaw subRaw).Pairwise fun x y =>
      y.relevance_score ≤ x.relevance_score ∧
        (x.relevance_score = y.relevance_score →
          ¬(x.entity_type = EntityType.UNDERENHET ∧
            y.entity_type = EntityType.HOVEDENHET)) := by
  have hs := List.sorted_insertionSort rankPrecedes
    ((mainRaw.filterMap fun d => parse_organization_data d .HOVEDENHET (some name)) ++
     (subRaw.filterMap fun d => parse_organization_data d .UNDERENHET (some name)))
  refine List.Pairwise.imp ?_ hs
  intro x y hxy
  rcases hxy with hlt | ⟨heq, himp⟩
  · exact ⟨le_of_lt hlt, fun he => ((lt_irrefl _ (he ▸ hlt)).elim)⟩
  · refine ⟨le_of_eq heq, fun _ hc => ?_⟩
    have hx : x.entity_type = EntityType.HOVEDENHET := himp hc.2
    rw [hc.1] at hx
    exact EntityType.noConfusion hx

/-- C7: lookup_by_number queries the main tier first; a failure or non-200
answer there is swallowed and the sub tier is still queried, so a number
present only in the sub tier yields a kind=SUB record; when neither tier
answers 200 the result is absence, and never more than two requests are
issued. -/
theorem C7_two_tier_fallback (mainResp subResp : HttpResponse) :
    (lookupByNumberRun mainResp subResp).2.length ≤ 2 ∧
    (isOk200 mainResp = false →
      (lookupByNumberRun mainResp subResp).2 = [Tier.mainTier, Tier.subTier] ∧
      (∀ data, subResp = HttpResponse.response 200 data →
        lookup_by_number mainResp subResp =
          parse_organization_data data EntityType.UNDERENHET none) ∧
      (∀ r, lookup_by_number mainResp subResp = some r →
        r.entity_type = EntityType.UNDERENHET) ∧
      (isOk200 subResp = false → lookup_by_number mainResp subResp = none)) := by
  have hmain : isOk200 mainResp = false →
      lookupByNumberRun mainResp subResp =
        (lookupSubTier subResp, [Tier.mainTier, Tier.subTier]) := by
    rcases mainResp with _ | ⟨s, d⟩
    · intro _; rfl
    · intro h
      simp only [isOk200, decide_eq_false_iff_not] at h
      simp only [lookupByNumberRun]
      rw [if_neg h]
  constructor
  · rcases mainResp with _ | ⟨s, d⟩
    · simp [lookupByNumberRun]
    · simp only [lookupByNumberRun]
      split <;> simp
  · intro hf
    have hrun := hmain hf
    have hlook : lookup_by_number mainResp subResp = lookupSubTier subResp := by
      unfold lookup_by_number
      rw [hrun]
    refine ⟨by rw [hrun], ?_, ?_, ?_⟩
    · intro data hsub
      subst hsub
      rw [hlook]
      simp [lookupSubTier]
    · intro r hr
      rw [hlook] at hr
      exact lookupSubTier_entity subResp r hr
    · intro hsub
      rw [hlook]
      exact lookupSubTier_eq_none subResp hsub

theorem C7_two_tier_fallback_witness :
    lookup_by_number HttpResponse.failure (HttpResponse.response 200 {}) =
      parse_organization_data {} EntityType.UNDERENHET none ∧
    (∀ r, lookup_by_number HttpResponse.failure (HttpResponse.response 200 {}) = some r →
      r.entity_type = EntityType.UNDERENHET) ∧
    lookup_by_number HttpResponse.failure HttpResponse.failure = none :=
  ⟨((C7_two_tier_fallback HttpResponse.failure (HttpResponse.response 200 {})).2
      (by decide)).2.1 {} rfl,
   ((C7_two_tier_fallback HttpResponse.failure (HttpResponse.response 200 {})).2
      (by decide)).2.2.1,
   ((C7_two_tier_fallback HttpResponse.failure HttpResponse.failure).2
      (by decide)).2.2.2 (by decide)⟩

/-- C8: Address.format returns the unavailable sentinel when there are no
street lines and no postal code, and when the collected parts are empty
despite that check; otherwise it joins the collected parts with a comma and
space; the Karl Johans gate example renders as expected. -/
theorem C8_address_format (a : Address) :
    (a.street_lines = [] → pyTruthyStr a.postal_code = false →
      a.format = ADDRESS_UNAVAILABLE) ∧
    (a.formatParts = [] → a.format = ADDRESS_UNAVAILABLE) ∧
    (a.formatParts ≠ [] → a.format = joinParts ((", ").data) a.formatParts) ∧
    Address.format { street_lines := [("Karl Johans gate 1").data],
                     postal_code := some (("0154").data),
                     city := some (("OSLO").data) } =
      ("Karl Johans gate 1, 0154 OSLO").data := by
  refine ⟨?_, ?_, ?_, by decide⟩
  · intro h1 h2
    unfold Address.format
    rw [if_pos ⟨h1, h2⟩]
  · intro hp
    unfold Address.format
    by_cases h0 : a.street_lines = [] ∧ pyTruthyStr a.postal_code = false
    · rw [if_pos h0]
    · rw [if_neg h0, if_pos hp]
  · intro hp
    unfold Address.format
    rw [if_neg (fun h0 => hp (formatParts_nil_of a h0.1 h0.2)), if_neg hp]

theorem C8_address_format_witness :
    Address.format { street_lines := [] } = ADDRESS_UNAVAILABLE ∧
    Address.format { street_lines := [(" ").data] } = ADDRESS_UNAVAILABLE ∧
    Address.format { street_lines := [("Oslo gate 2").data] } =
      joinParts ((", ").data)
        (Address.formatParts { street_lines := [("Oslo gate 2").data] }) :=
  ⟨(C8_address_format _).1 rfl rfl,
   (C8_address_format _).2.1 (by decide),
   (C8_address_format _).2.2.1 (by decide)⟩

set_option maxRecDepth 8000 in
/-- C9: a pair of strings with distinct normalized forms and no containment
either way still scores exactly 1.0 through the fuzzy path, so the
exact-match display tier is reachable by fuzzy matches. -/
theorem C9_fuzzy_reaches_exact_tier :
    normalize_text (("aa bb").data) ≠ normalize_text (("aa x bb").data) ∧
    isSubstringOf (normalize_text (("aa bb").data)) (normalize_text (("aa x bb").data)) = false ∧
    isSubstringOf (normalize_text (("aa x bb").data)) (normalize_text (("aa bb").data)) = false ∧
    calculate_relevance_score (("aa bb").data) (("aa x bb").data) = 1 ∧
    EXACT_MATCH_THRESHOLD ≤ calculate_relevance_score (("aa bb").data) (("aa x bb").data) ∧
    relevance_indicator (calculate_relevance_score (("aa bb").data) (("aa x bb").data)) =
      (" 🎯 EXACT MATCH").data := by
  have hr : ratioOf (("aa bb").data) (("aa x bb").data) = 5/6 := by
    unfold ratioOf
    rw [show matchingTotal (("aa bb").data) (("aa x bb").data) = 5 from by decide,
        show (("aa bb").data).length = 5 from by decide,
        show (("aa x bb").data).length = 7 from by decide]
    norm_num
  have hs : calculate_relevance_score (("aa bb").data) (("aa x bb").data) = 1 := by
    rw [score_fuzzy _ _ (by decide) (by decide) (by decide),
        if_pos (by decide), if_pos (by decide),
        show normalize_text (("aa bb").data) = ("aa bb").data from by decide,
        show normalize_text (("aa x bb").data) = ("aa x bb").data from by decide,
        hr]
    unfold pyMin WORD_SUBSET_BONUS WORD_ORDER_BONUS
    norm_num
  refine ⟨by decide, by decide, by decide, hs, ?_, ?_⟩
  · rw [hs]
    unfold EXACT_MATCH_THRESHOLD
    norm_num
  · rw [hs]
    unfold relevance_indicator EXACT_MATCH_THRESHOLD
    rw [if_pos (by norm_num)]

/-- C10: a 200 answer from the main tier whose body fails to parse makes
lookup_by_number return absence immediately, without querying the sub
tier. -/
theorem C10_parse_failure_stops (data : RawOrg) (subResp : HttpResponse)
    (h : parse_organization_data data EntityType.HOVEDENHET none = none) :
    lookupByNumberRun (HttpResponse.response 200 data) subResp =
      (none, [Tier.mainTier]) := by
  simp only [lookupByNumberRun, if_true]
  rw [h]

theorem C10_parse_failure_stops_witness :
    parse_organization_data { organisasjonsform := RawField.malformed }
      EntityType.HOVEDENHET none = none ∧
    lookupByNumberRun
        (HttpResponse.response 200 { organisasjonsform := RawField.malformed })
        (HttpResponse.response 200 {}) =
      (none, [Tier.mainTier]) :=
  ⟨by decide,
   C10_parse_failure_stops { organisasjonsform := RawField.malformed }
     (HttpResponse.response 200 {}) (by decide)⟩
